import Mathlib

/-!
# MazeGame: the Key entity (`MazeGame/key.cpp`) and the application frame

A shallow embedding of `Key` and of the collaborators it calls, and of the start and the frame of
`CMainApplication` (`MazeGame/hellovr_opengl_main.cpp`).

* `Key::Update`, `Key::GoAway`, `Key::SetHolder`, `Key::Drop`, `Key::CanBePickedUp` and
  `Key::InitTransform` are transcribed from `key.cpp`, statement by statement.
* `Transform` (its header and body are not among the sources) is modelled from the
  specification, sections 3 and 4.1.
* The base class members `GameObject::InitBoundingBox` and `GameObject::Update`, the query
  `Map::IntersectsDoorWithId` and the constants of `constants.h` are parameters.
* Calls into objects other than the key (`Door::GoAway`, the holder's `UseKey`, the base class)
  are recorded, in program order, in a list of `Call`s returned next to the new key state.
* `Player::UseKey` and `Player::DropKey` (player.cpp is not among the sources) are modelled from
  the specification, section 4.7; `held_key_` is the member that player.h declares. The holder
  of a key is a `Controller` (controller.h is not among the sources), not a `Player`.
* `BInit`, `BInitGL`, `BInitCompositor`, `RenderFrame`, `RenderStereoTargets` and
  `RenderScene` are transcribed from `hellovr_opengl_main.cpp`; the answers of the platform are
  the fields of `Startup`, and calls that only set the state of OpenGL are left out.

Coordinates are `glm` floats in the program; here they are rationals. No claim below depends on
rounding: the only arithmetic on coordinates is the composition of a transform with its parent.
-/

namespace MazeGame

/-! ## Vectors and matrices (`glm::vec2`, `glm::vec3`, `glm::vec4`, affine `glm::mat4`) -/

structure Vec2 where
  x : Rat
  y : Rat
deriving DecidableEq

structure Vec3 where
  x : Rat
  y : Rat
  z : Rat
deriving DecidableEq

structure Vec4 where
  x : Rat
  y : Rat
  z : Rat
  w : Rat
deriving DecidableEq

def Vec3.add (a b : Vec3) : Vec3 := ⟨a.x + b.x, a.y + b.y, a.z + b.z⟩

def Vec3.dot (a b : Vec3) : Rat := a.x * b.x + a.y * b.y + a.z * b.z

/-- A 3x3 matrix, given by its rows. -/
structure Mat3 where
  r0 : Vec3
  r1 : Vec3
  r2 : Vec3
deriving DecidableEq

def Mat3.identity : Mat3 := ⟨⟨1, 0, 0⟩, ⟨0, 1, 0⟩, ⟨0, 0, 1⟩⟩

def Mat3.mulVec (m : Mat3) (v : Vec3) : Vec3 := ⟨m.r0.dot v, m.r1.dot v, m.r2.dot v⟩

def Mat3.col0 (m : Mat3) : Vec3 := ⟨m.r0.x, m.r1.x, m.r2.x⟩

def Mat3.col1 (m : Mat3) : Vec3 := ⟨m.r0.y, m.r1.y, m.r2.y⟩

def Mat3.col2 (m : Mat3) : Vec3 := ⟨m.r0.z, m.r1.z, m.r2.z⟩

def Mat3.mul (a b : Mat3) : Mat3 :=
  ⟨⟨a.r0.dot b.col0, a.r0.dot b.col1, a.r0.dot b.col2⟩,
   ⟨a.r1.dot b.col0, a.r1.dot b.col1, a.r1.dot b.col2⟩,
   ⟨a.r2.dot b.col0, a.r2.dot b.col1, a.r2.dot b.col2⟩⟩

/-- The matrix that scales the three axes by the components of `s`. -/
def Mat3.diag (s : Vec3) : Mat3 := ⟨⟨s.x, 0, 0⟩, ⟨0, s.y, 0⟩, ⟨0, 0, s.z⟩⟩

/-- An affine map of space: the upper three rows of a `glm::mat4` whose last row is `0 0 0 1`. -/
structure Affine where
  linear : Mat3
  offset : Vec3
deriving DecidableEq

/-- Matrix product `p * l`: first `l`, then `p`. -/
def Affine.mul (p l : Affine) : Affine :=
  ⟨p.linear.mul l.linear, p.offset.add (p.linear.mulVec l.offset)⟩

/-- An angle, given by its exact cosine and sine. -/
structure Angle where
  cos : Rat
  sin : Rat
deriving DecidableEq

/-- The angle `M_PI / 2`: a quarter turn. -/
def M_PI_div_2 : Angle := ⟨0, 1⟩

/-- The rotation by `angle` about the unit vector `a` (Rodrigues' formula, as `glm::rotate`). -/
def rotationMatrix (angle : Angle) (a : Vec3) : Mat3 :=
  let c := angle.cos
  let s := angle.sin
  ⟨⟨c + (1 - c) * a.x * a.x, (1 - c) * a.x * a.y - s * a.z, (1 - c) * a.x * a.z + s * a.y⟩,
   ⟨(1 - c) * a.y * a.x + s * a.z, c + (1 - c) * a.y * a.y, (1 - c) * a.y * a.z - s * a.x⟩,
   ⟨(1 - c) * a.z * a.x - s * a.y, (1 - c) * a.z * a.y + s * a.x, c + (1 - c) * a.z * a.z⟩⟩

/-! ## Transform -/

/-- Modelled from the spec: the class `Transform` (transform.h / transform.cpp are not among the
sources). Section 3: "local translation (3-vector), local rotation (quaternion or matrix), local
scale (3-vector or scalar), optional weak reference to a parent Transform". The parent is
represented by what the child can observe of it: the parent's current world transform. -/
structure Transform where
  translation : Vec3
  rotation : Mat3
  scale : Vec3
  parent : Option Affine
deriving DecidableEq

namespace Transform

/-- Modelled from the spec: the local transform, translation after rotation after scale. -/
def LocalTransform (t : Transform) : Affine := ⟨t.rotation.mul (Mat3.diag t.scale), t.translation⟩

/-- Modelled from the spec: `WorldTransform()`, section 3 "world transform = parent's world
transform (if present) composed with local transform; a Transform with no parent is its own world
space" and P6 "`C.WorldTransform()` equals `P.WorldTransform() * C.LocalTransform()`". -/
def WorldTransform (t : Transform) : Affine :=
  match t.parent with
  | none => t.LocalTransform
  | some p => p.mul t.LocalTransform

/-- The position of the transform's origin in world space. -/
def WorldPosition (t : Transform) : Vec3 := t.WorldTransform.offset

/-- Modelled from the spec: `X()`, "accessors for the translation's first two components". For a
transform without a parent this is also the world coordinate. For a transform with a parent the
spec does not say whether the accessor returns the local or the world coordinate; no theorem of
this file depends on which. -/
def X (t : Transform) : Rat := t.translation.x

/-- Modelled from the spec: `Y()`, "accessors for the translation's first two components"; see
`X`. -/
def Y (t : Transform) : Rat := t.translation.y

/-- Modelled from the spec: `Translate(delta)`, "adds to local translation". -/
def Translate (t : Transform) (delta : Vec3) : Transform :=
  { t with translation := t.translation.add delta }

/-- Modelled from the spec: `Rotate(angle, axis)`, "composes a rotation into local
orientation". -/
def Rotate (t : Transform) (angle : Angle) (axis : Vec3) : Transform :=
  { t with rotation := t.rotation.mul (rotationMatrix angle axis) }

/-- Modelled from the spec: `ResetAndSetTranslation(pos)`, "discards prior local
translation/rotation accumulation side effects tied to translation and sets translation to `pos`
directly". -/
def ResetAndSetTranslation (t : Transform) (pos : Vec3) : Transform :=
  { t with translation := pos, rotation := Mat3.identity }

/-- Modelled from the spec: `ClearParent()`, "detaches from parent; world transform becomes equal
to local transform from that point on". -/
def ClearParent (t : Transform) : Transform := { t with parent := none }

end Transform

/-! ## Bounding volume, door, map -/

/-- The bounding volume of a game object: of the class (not among the sources) `key.cpp` uses the
member `transform` and `GetBoxVertices()`. -/
structure BoundingBox where
  box_vertices : List Vec4
  transform : Transform
deriving DecidableEq

/-- Modelled from the spec: `GetBoxVertices()`, the "local-space corners, stable for the object's
lifetime". -/
def BoundingBox.GetBoxVertices (b : BoundingBox) : List Vec4 := b.box_vertices

/-- A `Door*`: `handle` stands for the address of the object, `id_` is the door's id. -/
structure Door where
  handle : Nat
  id_ : Char
  bounding_box_ : BoundingBox
deriving DecidableEq

/-- A `Controller*` (the holder of a key): the address of the object. -/
abbrev ControllerRef := Nat

/-- The millisecond counter is a `Uint32`. -/
def UINT32_SIZE : Nat := 2 ^ 32

/-- Subtraction of two `Uint32` values: modulo `2 ^ 32`. -/
def sub32 (a b : Nat) : Nat := (a % UINT32_SIZE + UINT32_SIZE - b % UINT32_SIZE) % UINT32_SIZE

/-- The constants of `constants.h` (not among the sources) that `key.cpp` reads. -/
structure Constants where
  KEY_HEIGHT : Rat
  KEY_DROP_PICKUP_COOLDOWN_MS : Nat

/-- The members of the base class `GameObject` that `key.cpp` calls and whose bodies are not among
the sources. Both act on the object's bounding volume: `InitBoundingBox(vertices)` sees the
object's transform, its present bounding volume and the vertex set; `Update()` "recomputes
bounding volume from the current transform". -/
structure GameObject where
  InitBoundingBox : Transform → BoundingBox → List Vec4 → BoundingBox
  Update : Transform → BoundingBox → BoundingBox

/-! ## Key -/

/-- The data members of a `Key`: its own (`id_`, `holder_`, `drop_time_`,
`bounding_box_vertices_`) and those inherited from `GameObject` (`transform`, `bounding_box_`). -/
structure Key where
  id_ : Char
  holder_ : Option ControllerRef
  drop_time_ : Nat
  bounding_box_vertices_ : List Vec4
  transform : Transform
  bounding_box_ : BoundingBox
deriving DecidableEq

/-- The `Map` as `Key::Update` sees it: the query `IntersectsDoorWithId(object, id)`. -/
structure Map where
  IntersectsDoorWithId : Key → Char → Option Door

/-- Modelled from the spec: `Map::IntersectsDoorWithId` (map.cpp is not among the sources),
"scans registered Doors, returns the first (or null) whose bounding volume intersects `object`'s
bounding volume AND whose id equals `id`; null if none". The intersection test is a parameter. -/
def Map.ofDoors (intersects : BoundingBox → BoundingBox → Bool) (doors : List Door) : Map :=
  ⟨fun object id =>
    doors.find? (fun d => intersects d.bounding_box_ object.bounding_box_ && d.id_ == id)⟩

/-- A call that `Key::Update` makes: on a door, on the key itself, on the holder, or into the
base class. -/
inductive Call where
  | DoorGoAway (door : Door)
  | KeyGoAway
  | UseKey (holder : ControllerRef)
  | InitBoundingBox
  | BoundingBoxClearParent
  | GameObjectUpdate
deriving DecidableEq

namespace Key

/-- `Key::GoAway`:
`transform->ClearParent(); transform->ResetAndSetTranslation(glm::vec3(0, 0, -3));` -/
def GoAway (k : Key) : Key :=
  let t1 := k.transform.ClearParent
  let t2 := t1.ResetAndSetTranslation ⟨0, 0, -3⟩
  { k with transform := t2 }

/-- `Key::SetHolder`: `holder_ = player;` (a null pointer is `none`). -/
def SetHolder (k : Key) (player : Option ControllerRef) : Key := { k with holder_ := player }

/-- `Key::InitTransform`. -/
def InitTransform (k : Key) (base : GameObject) (c : Constants) : Key :=
  let previous_pos : Vec2 := ⟨k.transform.X, k.transform.Y⟩
  let t1 := k.transform.ClearParent
  let t2 := t1.ResetAndSetTranslation ⟨previous_pos.x, previous_pos.y, c.KEY_HEIGHT⟩
  let t3 := t2.Rotate M_PI_div_2 ⟨1, 0, 0⟩
  let b1 := base.InitBoundingBox t3 k.bounding_box_ k.bounding_box_vertices_
  let b2 := { b1 with transform := b1.transform.ClearParent }
  { k with transform := t3, bounding_box_ := b2 }

/-- `Key::Drop`, called when `SDL_GetTicks()` returns `ticks`:
`holder_ = nullptr; InitTransform(); drop_time_ = SDL_GetTicks();` -/
def Drop (k : Key) (base : GameObject) (c : Constants) (ticks : Nat) : Key :=
  let k1 := { k with holder_ := none }
  let k2 := k1.InitTransform base c
  { k2 with drop_time_ := ticks }

/-- `Key::CanBePickedUp`, called when `SDL_GetTicks()` returns `ticks`:
`return SDL_GetTicks() - drop_time_ > KEY_DROP_PICKUP_COOLDOWN_MS;` -/
def CanBePickedUp (k : Key) (c : Constants) (ticks : Nat) : Bool :=
  decide (sub32 ticks k.drop_time_ > c.KEY_DROP_PICKUP_COOLDOWN_MS)

/-- The first `if` of `Key::Update`: the unlock transaction. -/
def UpdateUnlock (door : Option Door) (k : Key) : Key × List Call :=
  match k.holder_, door with
  | some holder, some d =>
    let k1 := k.GoAway
    ({ k1 with holder_ := none }, [Call.DoorGoAway d, Call.KeyGoAway, Call.UseKey holder])
  | _, _ => (k, [])

/-- The second `if` of `Key::Update`: the bounding volume of a held key. -/
def UpdateHeld (base : GameObject) (k : Key) : Key × List Call :=
  match k.holder_ with
  | some _ =>
    let b1 := base.InitBoundingBox k.transform k.bounding_box_ k.bounding_box_vertices_
    let b2 := { b1 with transform := b1.transform.ClearParent }
    ({ k with bounding_box_ := b2 }, [Call.InitBoundingBox, Call.BoundingBoxClearParent])
  | none => (k, [])

/-- `Key::Update`: the query, the two `if`s, then `GameObject::Update()`. The result is the key
after the call and the calls made, in order. -/
def Update (k : Key) (base : GameObject) (map_ : Map) : Key × List Call :=
  let door := map_.IntersectsDoorWithId k k.id_
  let s1 := UpdateUnlock door k
  let s2 := UpdateHeld base s1.1
  let k3 := { s2.1 with bounding_box_ := base.Update s2.1.transform s2.1.bounding_box_ }
  (k3, s1.2 ++ s2.2 ++ [Call.GameObjectUpdate])

end Key

/-! ## Sequences of operations on a key -/

/-- A call of a member function of a key. `Update` carries the map state at the call, `Drop` and
`CanBePickedUp` the value of `SDL_GetTicks()` at the call. -/
inductive KeyOp where
  | Update (map_ : Map)
  | GoAway
  | SetHolder (player : Option ControllerRef)
  | Drop (ticks : Nat)
  | InitTransform
  | CanBePickedUp (ticks : Nat)

/-- Whether the operation is a call of `Key::Drop`. -/
def KeyOp.isDrop : KeyOp → Bool
  | KeyOp.Drop _ => true
  | _ => false

/-- The key after one operation. `CanBePickedUp` only reads the key. -/
def Key.step (base : GameObject) (c : Constants) (k : Key) : KeyOp → Key
  | KeyOp.Update map_ => (k.Update base map_).1
  | KeyOp.GoAway => k.GoAway
  | KeyOp.SetHolder player => k.SetHolder player
  | KeyOp.Drop ticks => k.Drop base c ticks
  | KeyOp.InitTransform => k.InitTransform base c
  | KeyOp.CanBePickedUp _ => k

/-- The key after a sequence of operations, the first of the list first. -/
def Key.run (base : GameObject) (c : Constants) (ops : List KeyOp) (k : Key) : Key :=
  ops.foldl (Key.step base c) k

/-! ## The constructor, the update with checked pointers, the update as specified -/

/-- The constructor `Key::Key(model, map, id, pos) : GameObject(model, map)` (a type and a
function cannot share the name `Key.Key` here). The base class constructor (not among
the sources) leaves `object_transform` and `object_box`; what `key.h` (not among the sources) puts
into `holder_` and `drop_time_`, which the constructor body does not write, is `holder0` and
`drop_time0`. The body is
`id_ = id; bounding_box_vertices_ = bounding_box_->GetBoxVertices();`
`transform->Translate(glm::vec3(pos.x, pos.y, 0)); InitTransform();` -/
def Key.new (base : GameObject) (c : Constants) (object_transform : Transform)
    (object_box : BoundingBox) (holder0 : Option ControllerRef) (drop_time0 : Nat) (id : Char)
    (pos : Vec2) : Key :=
  let k0 : Key := ⟨id, holder0, drop_time0, [], object_transform, object_box⟩
  let k1 := { k0 with bounding_box_vertices_ := k0.bounding_box_.GetBoxVertices }
  let k2 := { k1 with transform := k1.transform.Translate ⟨pos.x, pos.y, 0⟩ }
  k2.InitTransform base c

/-- What goes wrong when a null pointer is dereferenced. -/
inductive Fault where
  | NullPointerDereference
deriving DecidableEq

/-- The object a pointer points to; a fault when the pointer is null. -/
def deref {α : Type} (p : Option α) : Except Fault α :=
  match p with
  | some a => Except.ok a
  | none => Except.error Fault.NullPointerDereference

/-- `Key::Update` with every pointer checked where the code dereferences it: `map_->`, `door->`
and `holder_->`. The tests are those of the code, `holder_ != nullptr && door != nullptr` and
`holder_ != nullptr`. -/
def Key.UpdateChecked (k : Key) (base : GameObject) (map_ : Option Map) :
    Except Fault (Key × List Call) := do
  let m ← deref map_
  let door := m.IntersectsDoorWithId k k.id_
  let s1 ← (if k.holder_.isSome && door.isSome then do
      let d ← deref door
      let k1 := k.GoAway
      let holder ← deref k1.holder_
      pure ({ k1 with holder_ := none },
        [Call.DoorGoAway d, Call.KeyGoAway, Call.UseKey holder])
    else pure (k, []))
  let s2 := (if s1.1.holder_.isSome then
      let b1 := base.InitBoundingBox s1.1.transform s1.1.bounding_box_ s1.1.bounding_box_vertices_
      let b2 := { b1 with transform := b1.transform.ClearParent }
      ({ s1.1 with bounding_box_ := b2 }, [Call.InitBoundingBox, Call.BoundingBoxClearParent])
    else (s1.1, []))
  let k3 := { s2.1 with bounding_box_ := base.Update s2.1.transform s2.1.bounding_box_ }
  pure (k3, s1.2 ++ s2.2 ++ [Call.GameObjectUpdate])

/-- The update of a key in the words of the specification, section 4.6: "1. Query
`Map.IntersectsDoorWithId(this, id)`. 2. If currently held AND a matching door is found: door
`GoAway()`, this key `GoAway()`, holder's `UseKey()` is invoked, then this key's own holder
reference is cleared. 3. Else if currently held (no matching door yet): recompute bounding volume
from the cached vertex set and clear its bounding volume's parent attachment. 4. Always: invoke
base `Update()`". -/
def Key.UpdateSpec (k : Key) (base : GameObject) (map_ : Map) : Key × List Call :=
  let door := map_.IntersectsDoorWithId k k.id_
  let s : Key × List Call :=
    match k.holder_, door with
    | some holder, some d =>
      ({ k.GoAway with holder_ := none },
        [Call.DoorGoAway d, Call.KeyGoAway, Call.UseKey holder])
    | some _, none =>
      let b1 := base.InitBoundingBox k.transform k.bounding_box_ k.bounding_box_vertices_
      let b2 := { b1 with transform := b1.transform.ClearParent }
      ({ k with bounding_box_ := b2 }, [Call.InitBoundingBox, Call.BoundingBoxClearParent])
    | none, _ => (k, [])
  ({ s.1 with bounding_box_ := base.Update s.1.transform s.1.bounding_box_ },
    s.2 ++ [Call.GameObjectUpdate])

/-- Whether the operation is one that `Key::GoAway` survives as to the place of the key: every
operation but `Drop` and `InitTransform`. -/
def KeyOp.keepsPlace : KeyOp → Bool
  | KeyOp.Drop _ => false
  | KeyOp.InitTransform => false
  | _ => true

/-- Whether the operation leaves a key that is not held not held: every operation but `SetHolder`
with a non-null player. -/
def KeyOp.keepsNotHeld : KeyOp → Bool
  | KeyOp.SetHolder (some _) => false
  | _ => true

/-- The place `Key::GoAway` puts a key: no parent, translation (0, 0, -3). -/
def Key.isGoneAway (k : Key) : Bool :=
  decide (k.transform.parent = none) && decide (k.transform.translation = ⟨0, 0, -3⟩)

/-! ## Players and the world of keys and players -/

/-- A `Key*`: the place of the key among the keys of the world. -/
abbrev KeyRef := Nat

/-- A `Player*`: the place of the player among the players of the world. -/
abbrev PlayerRef := Nat

/-- Of a `Player` (player.h), the member that refers to a key: `Key* held_key_;`. A player is
not a `Controller`: `Key::SetHolder` takes a `Controller*` and `Player` derives from
`GameObject`. -/
structure Player where
  held_key_ : Option KeyRef
deriving DecidableEq

/-- Modelled from the spec: `Player::UseKey` (player.cpp is not among the sources), "clears the
held-key reference". -/
def Player.UseKey (p : Player) : Player := { p with held_key_ := none }

/-- The keys and the players that exist. -/
structure World where
  keys : List Key
  players : List Player

/-- A call of one of the member functions `Key::SetHolder`, `Key::Drop`, `Key::GoAway`,
`Key::Update`, `Player::UseKey`, `Player::DropKey` on one object of the world. -/
inductive WorldOp where
  | KeySetHolder (key : KeyRef) (player : Option ControllerRef)
  | KeyDrop (key : KeyRef) (ticks : Nat)
  | KeyGoAway (key : KeyRef)
  | KeyUpdate (key : KeyRef) (map_ : Map)
  | PlayerUseKey (player : PlayerRef)
  | PlayerDropKey (player : PlayerRef) (ticks : Nat)

namespace World

/-- `Key::Update` on key `key` of the world. The call `holder_->UseKey()` goes to a `Controller`
(controller.h is not among the sources), which is no `Player`: it is in the call list of
`Key.Update` and changes no member of a key or of a player. -/
def KeyUpdate (w : World) (base : GameObject) (key : KeyRef) (map_ : Map) : World :=
  match w.keys[key]? with
  | none => w
  | some k => ⟨w.keys.set key (k.Update base map_).1, w.players⟩

/-- Modelled from the spec: `Player::DropKey` (player.cpp is not among the sources), "if a key is
held, invoke its `Drop()` and clear the local held-key reference". -/
def PlayerDropKey (w : World) (base : GameObject) (c : Constants) (player : PlayerRef)
    (ticks : Nat) : World :=
  match w.players[player]? with
  | none => w
  | some p =>
    match p.held_key_ with
    | none => w
    | some key =>
      ⟨List.modify (fun k => k.Drop base c ticks) key w.keys,
        w.players.set player { p with held_key_ := none }⟩

/-- The world after one operation. -/
def step (base : GameObject) (c : Constants) (w : World) : WorldOp → World
  | WorldOp.KeySetHolder key player =>
    { w with keys := List.modify (fun k => k.SetHolder player) key w.keys }
  | WorldOp.KeyDrop key ticks =>
    { w with keys := List.modify (fun k => k.Drop base c ticks) key w.keys }
  | WorldOp.KeyGoAway key => { w with keys := List.modify Key.GoAway key w.keys }
  | WorldOp.KeyUpdate key map_ => w.KeyUpdate base key map_
  | WorldOp.PlayerUseKey player =>
    { w with players := List.modify Player.UseKey player w.players }
  | WorldOp.PlayerDropKey player ticks => w.PlayerDropKey base c player ticks

/-- The world after a sequence of operations, the first of the list first. -/
def run (base : GameObject) (c : Constants) (ops : List WorldOp) (w : World) : World :=
  ops.foldl (step base c) w

/-- The holder of key `key`, as the key has it in `holder_`. -/
def holderOf (w : World) (key : KeyRef) : Option ControllerRef :=
  (w.keys[key]?).bind Key.holder_

/-- The key that player `player` holds, as the player has it in `held_key_`. -/
def heldKeyOf (w : World) (player : PlayerRef) : Option KeyRef :=
  (w.players[player]?).bind Player.held_key_

/-- No two keys name the same holder in their `holder_`: no holder holds two keys. -/
def Exclusive (w : World) : Prop :=
  ∀ (k1 k2 : KeyRef) (h : ControllerRef),
    w.holderOf k1 = some h → w.holderOf k2 = some h → k1 = k2

/-- Whether no key other than `key` names `holder` in its `holder_`. -/
def namedOnlyBy (w : World) (holder : ControllerRef) (key : KeyRef) : Bool :=
  (List.range w.keys.length).all (fun k2 => decide (w.holderOf k2 = some holder → k2 = key))

/-- Whether no two keys name the same holder in their `holder_`. -/
def isExclusive (w : World) : Bool :=
  (List.range w.keys.length).all (fun k1 =>
    match w.holderOf k1 with
    | none => true
    | some holder => w.namedOnlyBy holder k1)

/-- Whether the operation respects exclusivity in world `w`: `SetHolder` with a non-null holder
is called on a key only when no other key names that holder. `Key::SetHolder` does not check
this; it is up to its caller. -/
def opGuarded (w : World) : WorldOp → Bool
  | WorldOp.KeySetHolder key (some holder) => w.namedOnlyBy holder key
  | _ => true

/-- Whether every operation of the sequence respects exclusivity in the world it is applied
to. -/
def guarded (base : GameObject) (c : Constants) : World → List WorldOp → Bool
  | _, [] => true
  | w, op :: rest => w.opGuarded op && guarded base c (w.step base c op) rest

end World

/-! ## The application (`hellovr_opengl_main.cpp`) -/

/-- An eye, `vr::Hmd_Eye`. -/
inductive Hmd_Eye where
  | Eye_Left
  | Eye_Right
deriving DecidableEq

/-- A call that a frame makes on the game, on the compositor or on the window. Calls that only
set the state of OpenGL are left out. -/
inductive FrameCall where
  | TextureManagerUpdate
  | PlayerUpdate
  | CameraUpdate
  | MapUpdateAll
  | CompositorSubmit (eye : Hmd_Eye)
  | SwapWindow
  | WaitGetPoses
deriving DecidableEq

/-- `CMainApplication::RenderScene`:
`TextureManager::Update(); player->Update(); camera.Update(); ... map->UpdateAll();` -/
def RenderScene (_nEye : Hmd_Eye) : List FrameCall :=
  [FrameCall.TextureManagerUpdate, FrameCall.PlayerUpdate, FrameCall.CameraUpdate,
    FrameCall.MapUpdateAll]

/-- `CMainApplication::RenderStereoTargets`: `RenderScene(vr::Eye_Left);` then
`RenderScene(vr::Eye_Right);`, each between calls that set the state of OpenGL. -/
def RenderStereoTargets : List FrameCall :=
  RenderScene Hmd_Eye.Eye_Left ++ RenderScene Hmd_Eye.Eye_Right

/-- `CMainApplication::RenderCompanionWindow`: calls of OpenGL only. -/
def RenderCompanionWindow : List FrameCall := []

/-- `CMainApplication::UpdateHMDMatrixPose`: `if (!m_pHMD) return;` then `WaitGetPoses` and
the bookkeeping of the poses. -/
def UpdateHMDMatrixPose (m_pHMD : Bool) : List FrameCall :=
  if !m_pHMD then [] else [FrameCall.WaitGetPoses]

/-- `CMainApplication::RenderFrame`; `m_pHMD` says whether the pointer to the HMD is non-null. -/
def RenderFrame (m_pHMD : Bool) : List FrameCall :=
  (if m_pHMD then
      RenderStereoTargets ++ RenderCompanionWindow
        ++ [FrameCall.CompositorSubmit Hmd_Eye.Eye_Left,
            FrameCall.CompositorSubmit Hmd_Eye.Eye_Right]
    else [])
    ++ [FrameCall.SwapWindow] ++ UpdateHMDMatrixPose m_pHMD

/-- What the platform answers while the application starts. -/
structure Startup where
  -- the value `SDL_Init` returns; negative on failure
  SDL_Init : Int
  -- whether `VR_Init` leaves `eError` at `vr::VRInitError_None`
  VR_Init_ok : Bool
  -- whether `SDL_CreateWindow` returns a window
  SDL_CreateWindow_ok : Bool
  -- whether `SDL_GL_CreateContext` returns a context
  SDL_GL_CreateContext_ok : Bool
  -- the value `gladLoadGLLoader` returns; zero on failure
  gladLoadGLLoader : Int
  -- whether `ShaderManager::InitShaders`, called by `SetupScene`, can create the shaders
  shaders_created : Bool
  -- whether `vr::VRCompositor()` returns a compositor
  VRCompositor_ok : Bool
deriving DecidableEq

/-- The conversion of an `int` to `bool` in a `return` of a function that returns `bool`. -/
def intToBool (n : Int) : Bool := n != 0

/-- A step of the start of the application. -/
inductive SetupCall where
  | SetupScene
  | SetupCameras
  | SetupStereoRenderTargets
  | SetupCompanionWindow
deriving DecidableEq

/-- `CMainApplication::BInitGL`: `SetupScene(); SetupCameras(); SetupStereoRenderTargets();`
`SetupCompanionWindow(); return true;`. `SetupScene` returns `void`, and the `bool` that
`SetupStereoRenderTargets` returns is not looked at. The result is the value returned and the
calls made. -/
def BInitGL (_s : Startup) : Bool × List SetupCall :=
  (true, [SetupCall.SetupScene, SetupCall.SetupCameras, SetupCall.SetupStereoRenderTargets,
    SetupCall.SetupCompanionWindow])

/-- `CMainApplication::BInitCompositor`: `if (!vr::VRCompositor()) return false; return true;` -/
def BInitCompositor (s : Startup) : Bool :=
  if !s.VRCompositor_ok then false else true

/-- `CMainApplication::BInit`: the value it returns. The branch taken when `gladLoadGLLoader`
fails is `return -1;`. -/
def BInit (s : Startup) : Bool :=
  if s.SDL_Init < 0 then false
  else if !s.VR_Init_ok then false
  else if !s.SDL_CreateWindow_ok then false
  else if !s.SDL_GL_CreateContext_ok then false
  else if s.gladLoadGLLoader = 0 then intToBool (-1)
  else if !(BInitGL s).1 then false
  else if !BInitCompositor s then false
  else true

/-- The members of `CMainApplication` that the constructor initialises and that tell one
application from another here: `m_nCompanionWindowWidth(1280)`,
`m_nCompanionWindowHeight(640)`, `m_pHMD(NULL)`. No member holds the arguments of the program. -/
structure CMainApplication where
  m_nCompanionWindowWidth : Nat
  m_nCompanionWindowHeight : Nat
  m_pHMD : Bool
deriving DecidableEq

/-- The constructor `CMainApplication::CMainApplication(int argc, char *argv[])`: the member
initialisers and `memset(m_rDevClassChar, 0, ...)`; `argc` and `argv` are not read. -/
def CMainApplication.new (_argv : List String) : CMainApplication := ⟨1280, 640, false⟩

/-- The map file that `CMainApplication::SetupScene` passes to `MapLoader::LoadMap`:
`std::string map_file = "map2.txt"; map = map_loader.LoadMap(map_file);` -/
def CMainApplication.SetupScene_map_file (_app : CMainApplication) : String := "map2.txt"

/-! ## Concrete data -/

/-- A transform at the origin, not rotated, not scaled, with no parent. -/
def Transform.origin : Transform := ⟨⟨0, 0, 0⟩, Mat3.identity, ⟨1, 1, 1⟩, none⟩

/-- A unit square as vertex set. -/
def exampleVertices : List Vec4 := [⟨0, 0, 0, 1⟩, ⟨1, 0, 0, 1⟩, ⟨1, 1, 0, 1⟩, ⟨0, 1, 0, 1⟩]

/-- A base class whose `InitBoundingBox` builds the volume from the vertex set, attached to the
object's transform, and whose `Update` moves the volume to the object's world position. -/
def exampleBase : GameObject where
  InitBoundingBox := fun t _ vs => ⟨vs, { Transform.origin with parent := some t.WorldTransform }⟩
  Update := fun t b => { b with transform := { b.transform with translation := t.WorldPosition } }

def exampleConstants : Constants := ⟨1 / 2, 1000⟩

/-- The transform of an object carried by a player who stands at (5, 7, 0): its parent is the
translation by (5, 7, 0) and its own translation is (1, 2, 0). -/
def carriedTransform : Transform :=
  ⟨⟨1, 2, 0⟩, Mat3.identity, ⟨1, 1, 1⟩, some ⟨Mat3.identity, ⟨5, 7, 0⟩⟩⟩

/-- A key with id `a`, held by controller 7 and carried along with it. -/
def heldKey : Key :=
  ⟨'a', some 7, 0, exampleVertices, carriedTransform, ⟨exampleVertices, Transform.origin⟩⟩

/-- A key with id `a` lying in the maze at (3, 4), held by nobody. -/
def freeKey : Key :=
  ⟨'a', none, 0, exampleVertices, { Transform.origin with translation := ⟨3, 4, 1 / 2⟩ },
    ⟨exampleVertices, Transform.origin⟩⟩

def doorA : Door := ⟨0, 'a', ⟨exampleVertices, Transform.origin⟩⟩

def doorB : Door := ⟨1, 'b', ⟨exampleVertices, Transform.origin⟩⟩

/-- A map with the doors `b` and `a`, in which every bounding volume meets every other. -/
def crowdedMap : Map := Map.ofDoors (fun _ _ => true) [doorB, doorA]

/-- A map with the door `b` only, which meets every bounding volume. -/
def wrongDoorMap : Map := Map.ofDoors (fun _ _ => true) [doorB]

/-- The held key `a` after the update in which it opens door `a`. -/
def goneKey : Key := (heldKey.Update exampleBase crowdedMap).1

/-- A world with two keys and two players: key 0 (id `a`) names controller 1 as its holder, key 1
lies in the maze, and player 1 has key 1 in `held_key_`. -/
def exampleWorld : World := ⟨[heldKey.SetHolder (some 1), freeKey], [⟨none⟩, ⟨some 1⟩]⟩

/-- A world with two keys that lie in the maze and two players who hold nothing. -/
def emptyHandedWorld : World := ⟨[freeKey, freeKey], [⟨none⟩, ⟨none⟩]⟩

/-- A start in which every call of the platform succeeds. -/
def goodStartup : Startup := ⟨0, true, true, true, 1, true, true⟩

/-- A start in which `gladLoadGLLoader` fails and every other call succeeds. -/
def gladFailsStartup : Startup := ⟨0, true, true, true, 0, true, true⟩

/-- A start in which the shaders cannot be created and every other call succeeds. -/
def shadersFailStartup : Startup := ⟨0, true, true, true, 1, false, true⟩

/-! ## Lemmas on the map query and on the millisecond counter -/

/-- The scan of `Map.ofDoors` returns only doors whose id is the id asked for. -/
theorem Map.ofDoors_id (intersects : BoundingBox → BoundingBox → Bool) (doors : List Door)
    (object : Key) (id : Char) (d : Door)
    (h : (Map.ofDoors intersects doors).IntersectsDoorWithId object id = some d) : d.id_ = id := by
  have hp := List.find?_some h
  simp only [Bool.and_eq_true, beq_iff_eq] at hp
  exact hp.2

/-- On `Uint32` values that have not wrapped, the machine difference is the difference. -/
theorem sub32_of_le (a b : Nat) (hle : b ≤ a) (ha : a < UINT32_SIZE) : sub32 a b = a - b := by
  unfold sub32 UINT32_SIZE at *
  omega

/-- The machine difference of a value with itself is zero. -/
theorem sub32_self (a : Nat) : sub32 a a = 0 := by
  unfold sub32 UINT32_SIZE
  omega

/-- The machine difference recovers an elapsed time below `2 ^ 32`, wrapped or not: the tick
count `e` milliseconds after tick `t` is `(t + e) % 2 ^ 32`. -/
theorem sub32_add_mod (t e : Nat) (he : e < UINT32_SIZE) :
    sub32 ((t + e) % UINT32_SIZE) t = e := by
  unfold sub32 UINT32_SIZE at *
  omega

/-- No operation other than `Key::Drop` writes `drop_time_`. -/
theorem Key.step_drop_time (base : GameObject) (c : Constants) (k : Key) (op : KeyOp)
    (h : op.isDrop = false) : (k.step base c op).drop_time_ = k.drop_time_ := by
  cases op with
  | Update map_ =>
    cases hh : k.holder_ with
    | none => simp [Key.step, Key.Update, Key.UpdateUnlock, Key.UpdateHeld, hh]
    | some holder =>
      cases hq : map_.IntersectsDoorWithId k k.id_ with
      | none => simp [Key.step, Key.Update, Key.UpdateUnlock, Key.UpdateHeld, hh, hq]
      | some d => simp [Key.step, Key.Update, Key.UpdateUnlock, Key.UpdateHeld, hh, hq, Key.GoAway]
  | GoAway => rfl
  | SetHolder player => rfl
  | Drop ticks => simp [KeyOp.isDrop] at h
  | InitTransform => rfl
  | CanBePickedUp ticks => rfl

/-- A sequence of operations without `Key::Drop` leaves `drop_time_` as it was. -/
theorem Key.run_drop_time (base : GameObject) (c : Constants) (ops : List KeyOp) :
    ∀ k : Key, (∀ op ∈ ops, op.isDrop = false) → (k.run base c ops).drop_time_ = k.drop_time_ := by
  induction ops with
  | nil => intro k _; rfl
  | cons op rest ih =>
    intro k h
    have hop : op.isDrop = false := h op (List.mem_cons_self op rest)
    have hrest : ∀ o ∈ rest, o.isDrop = false := fun o ho => h o (List.mem_cons_of_mem op ho)
    have hrun : k.run base c (op :: rest) = (k.step base c op).run base c rest := rfl
    rw [hrun, ih (k.step base c op) hrest, Key.step_drop_time base c k op hop]

/-! ## Key::Update -/

/-- C1 (unlock transaction): when the key is held and `Map::IntersectsDoorWithId(this, id_)`
returns a door, one call of `Key::Update` makes exactly the calls door `GoAway`, key `GoAway`,
holder `UseKey`, base `Update`, each of the first three exactly once; the key returned has a null
holder and the transform that `Key::GoAway` gives it. -/
theorem Key.Update_unlock_transaction (base : GameObject) (map_ : Map) (k : Key)
    (holder : ControllerRef) (d : Door) (hheld : k.holder_ = some holder)
    (hdoor : map_.IntersectsDoorWithId k k.id_ = some d) :
    (k.Update base map_).2
        = [Call.DoorGoAway d, Call.KeyGoAway, Call.UseKey holder, Call.GameObjectUpdate]
      ∧ (k.Update base map_).2.count (Call.DoorGoAway d) = 1
      ∧ (k.Update base map_).2.count Call.KeyGoAway = 1
      ∧ (k.Update base map_).2.count (Call.UseKey holder) = 1
      ∧ (k.Update base map_).1.holder_ = none
      ∧ (k.Update base map_).1.transform = k.GoAway.transform := by
  have htrace : (k.Update base map_).2
      = [Call.DoorGoAway d, Call.KeyGoAway, Call.UseKey holder, Call.GameObjectUpdate] := by
    simp [Key.Update, Key.UpdateUnlock, Key.UpdateHeld, hheld, hdoor]
  refine ⟨htrace, ?_, ?_, ?_, ?_, ?_⟩
  · rw [htrace]; simp [List.count_cons]
  · rw [htrace]; simp [List.count_cons]
  · rw [htrace]; simp [List.count_cons]
  · simp [Key.Update, Key.UpdateUnlock, Key.UpdateHeld, hheld, hdoor]
  · simp [Key.Update, Key.UpdateUnlock, Key.UpdateHeld, hheld, hdoor]

/-- Witness of C1: the held key `a` in a map where the doors `b` and `a` both touch it. -/
theorem Key.Update_unlock_transaction_witness :
    (heldKey.Update exampleBase crowdedMap).2
        = [Call.DoorGoAway doorA, Call.KeyGoAway, Call.UseKey 7, Call.GameObjectUpdate]
      ∧ (heldKey.Update exampleBase crowdedMap).2.count (Call.DoorGoAway doorA) = 1
      ∧ (heldKey.Update exampleBase crowdedMap).2.count Call.KeyGoAway = 1
      ∧ (heldKey.Update exampleBase crowdedMap).2.count (Call.UseKey 7) = 1
      ∧ (heldKey.Update exampleBase crowdedMap).1.holder_ = none
      ∧ (heldKey.Update exampleBase crowdedMap).1.transform = heldKey.GoAway.transform :=
  Key.Update_unlock_transaction exampleBase crowdedMap heldKey 7 doorA rfl (by decide)

/-- C2 (id matching): whatever the map, every door on which `Key::Update` calls `GoAway` is the
door that `Map::IntersectsDoorWithId(this, id_)` returned; hence, if the query returns only doors
whose id is the id asked for, `Key::Update` calls `GoAway` on no door whose id differs from the
key's. -/
theorem Key.Update_id_matching (base : GameObject) (map_ : Map) (k : Key) :
    (∀ d : Door, Call.DoorGoAway d ∈ (k.Update base map_).2 →
        map_.IntersectsDoorWithId k k.id_ = some d)
      ∧ ((∀ (object : Key) (id : Char) (d : Door),
            map_.IntersectsDoorWithId object id = some d → d.id_ = id) →
          ∀ d : Door, d.id_ ≠ k.id_ → Call.DoorGoAway d ∉ (k.Update base map_).2) := by
  have hfirst : ∀ d : Door, Call.DoorGoAway d ∈ (k.Update base map_).2 →
      map_.IntersectsDoorWithId k k.id_ = some d := by
    intro d hd
    cases hh : k.holder_ with
    | none => simp [Key.Update, Key.UpdateUnlock, Key.UpdateHeld, hh] at hd
    | some holder =>
      cases hq : map_.IntersectsDoorWithId k k.id_ with
      | none => simp [Key.Update, Key.UpdateUnlock, Key.UpdateHeld, hh, hq] at hd
      | some d0 =>
        simp [Key.Update, Key.UpdateUnlock, Key.UpdateHeld, hh, hq] at hd
        simp [hd]
  refine ⟨hfirst, ?_⟩
  intro hquery d hne hd
  exact hne (hquery k k.id_ d (hfirst d hd))

/-- Witness of C2: in a map where the doors `b` and `a` both touch the held key `a`, the door that
goes away is the one the query returned, and door `b` does not go away. -/
theorem Key.Update_id_matching_witness :
    crowdedMap.IntersectsDoorWithId heldKey heldKey.id_ = some doorA
      ∧ Call.DoorGoAway doorB ∉ (heldKey.Update exampleBase crowdedMap).2 :=
  ⟨(Key.Update_id_matching exampleBase crowdedMap heldKey).1 doorA (by decide),
   (Key.Update_id_matching exampleBase crowdedMap heldKey).2
     (Map.ofDoors_id (fun _ _ => true) [doorB, doorA]) doorB (by decide)⟩

/-- C3 (no transition without a matching door): when the key is held and
`Map::IntersectsDoorWithId(this, id_)` returns no door, `Key::Update` calls no `GoAway`, neither on
a door nor on the key, and no `UseKey`; the holder and the transform of the key are what they were
before the call. -/
theorem Key.Update_held_without_door (base : GameObject) (map_ : Map) (k : Key)
    (holder : ControllerRef) (hheld : k.holder_ = some holder)
    (hnone : map_.IntersectsDoorWithId k k.id_ = none) :
    (∀ d : Door, Call.DoorGoAway d ∉ (k.Update base map_).2)
      ∧ Call.KeyGoAway ∉ (k.Update base map_).2
      ∧ (∀ h : ControllerRef, Call.UseKey h ∉ (k.Update base map_).2)
      ∧ (k.Update base map_).1.holder_ = k.holder_
      ∧ (k.Update base map_).1.transform = k.transform := by
  simp [Key.Update, Key.UpdateUnlock, Key.UpdateHeld, hheld, hnone]

/-- Witness of C3: the held key `a` touching door `b` only. -/
theorem Key.Update_held_without_door_witness :
    (∀ d : Door, Call.DoorGoAway d ∉ (heldKey.Update exampleBase wrongDoorMap).2)
      ∧ Call.KeyGoAway ∉ (heldKey.Update exampleBase wrongDoorMap).2
      ∧ (∀ h : ControllerRef, Call.UseKey h ∉ (heldKey.Update exampleBase wrongDoorMap).2)
      ∧ (heldKey.Update exampleBase wrongDoorMap).1.holder_ = heldKey.holder_
      ∧ (heldKey.Update exampleBase wrongDoorMap).1.transform = heldKey.transform :=
  Key.Update_held_without_door exampleBase wrongDoorMap heldKey 7 rfl (by decide)

/-- C4 (a key that is not held never unlocks): when the holder is null, `Key::Update` calls
`GoAway` on no door and not on the key, whatever `Map::IntersectsDoorWithId` returns; the only call
it makes is the base `Update`, and the holder stays null and the transform stays as it was. -/
theorem Key.Update_not_held (base : GameObject) (map_ : Map) (k : Key)
    (hnull : k.holder_ = none) :
    (∀ d : Door, Call.DoorGoAway d ∉ (k.Update base map_).2)
      ∧ Call.KeyGoAway ∉ (k.Update base map_).2
      ∧ (k.Update base map_).2 = [Call.GameObjectUpdate]
      ∧ (k.Update base map_).1.holder_ = none
      ∧ (k.Update base map_).1.transform = k.transform := by
  simp [Key.Update, Key.UpdateUnlock, Key.UpdateHeld, hnull]

/-- Witness of C4: the key `a` lying in the maze, touched by door `a`, which the query returns. -/
theorem Key.Update_not_held_witness :
    crowdedMap.IntersectsDoorWithId freeKey freeKey.id_ = some doorA
      ∧ (∀ d : Door, Call.DoorGoAway d ∉ (freeKey.Update exampleBase crowdedMap).2)
      ∧ Call.KeyGoAway ∉ (freeKey.Update exampleBase crowdedMap).2
      ∧ (freeKey.Update exampleBase crowdedMap).2 = [Call.GameObjectUpdate]
      ∧ (freeKey.Update exampleBase crowdedMap).1.holder_ = none
      ∧ (freeKey.Update exampleBase crowdedMap).1.transform = freeKey.transform :=
  ⟨by decide, Key.Update_not_held exampleBase crowdedMap freeKey rfl⟩

/-! ## Key::CanBePickedUp and Key::Drop -/

/-- C5: `Key::CanBePickedUp`, called at tick count `now` on a key whose drop timestamp is `t`,
returns true exactly when the `Uint32` difference of `now` and `t` exceeds
`KEY_DROP_PICKUP_COOLDOWN_MS`; when the counter has not wrapped since the drop (`t ≤ now`), that
is exactly when the elapsed time `now - t` is strictly greater than the constant. Any other key
with the same drop timestamp, whatever its holder, id and transform, gives the same result. -/
theorem Key.CanBePickedUp_iff_elapsed (c : Constants) (now t : Nat) (k : Key)
    (ht : k.drop_time_ = t) :
    (k.CanBePickedUp c now = true ↔ sub32 now t > c.KEY_DROP_PICKUP_COOLDOWN_MS)
      ∧ (t ≤ now → now < UINT32_SIZE →
          (k.CanBePickedUp c now = true ↔ now - t > c.KEY_DROP_PICKUP_COOLDOWN_MS))
      ∧ (∀ k2 : Key, k2.drop_time_ = t → k2.CanBePickedUp c now = k.CanBePickedUp c now) := by
  refine ⟨?_, ?_, ?_⟩
  · simp [Key.CanBePickedUp, ht]
  · intro hle hnow
    simp [Key.CanBePickedUp, ht, sub32_of_le now t hle hnow]
  · intro k2 h2
    simp [Key.CanBePickedUp, ht, h2]

/-- Witness of C5: a cooldown of 1000 ms and a key dropped at tick 0; at tick 1001 the held key
and the key lying in the maze can both be picked up. -/
theorem Key.CanBePickedUp_iff_elapsed_witness :
    (heldKey.CanBePickedUp exampleConstants 1001 = true
        ↔ 1001 - 0 > exampleConstants.KEY_DROP_PICKUP_COOLDOWN_MS)
      ∧ freeKey.CanBePickedUp exampleConstants 1001 = heldKey.CanBePickedUp exampleConstants 1001 :=
  ⟨(Key.CanBePickedUp_iff_elapsed exampleConstants 1001 0 heldKey rfl).2.1
      (by decide) (by decide),
   (Key.CanBePickedUp_iff_elapsed exampleConstants 1001 0 heldKey rfl).2.2 freeKey rfl⟩

/-- C6, the claim as stated fails: with a cooldown of 1000 ms and a key dropped at tick 5, at tick
1005 the cooldown constant has elapsed since the drop, and `CanBePickedUp` still returns false. -/
theorem Key.CanBePickedUp_cooldown_elapsed_counterexample :
    exampleConstants.KEY_DROP_PICKUP_COOLDOWN_MS ≤ 1005 - 5
      ∧ (heldKey.Drop exampleBase exampleConstants 5).CanBePickedUp exampleConstants 1005
          = false := by
  decide

/-- C6 as amended (cooldown): `CanBePickedUp` at the tick count at which `Drop` was called returns
false; and after any operations other than `Drop`, at the tick count `(t + e) % 2 ^ 32` that the
counter shows `e` milliseconds after that `Drop` (`e` below `2 ^ 32`, the counter wrapped or not),
it returns true when strictly more than `KEY_DROP_PICKUP_COOLDOWN_MS` has elapsed, and false when
the elapsed time is the constant or less. -/
theorem Key.CanBePickedUp_after_Drop (base : GameObject) (c : Constants) (k : Key) (t e : Nat)
    (ops : List KeyOp) (hops : ∀ op ∈ ops, op.isDrop = false) (he : e < UINT32_SIZE) :
    (k.Drop base c t).CanBePickedUp c t = false
      ∧ (c.KEY_DROP_PICKUP_COOLDOWN_MS < e →
          ((k.Drop base c t).run base c ops).CanBePickedUp c ((t + e) % UINT32_SIZE) = true)
      ∧ (e ≤ c.KEY_DROP_PICKUP_COOLDOWN_MS →
          ((k.Drop base c t).run base c ops).CanBePickedUp c ((t + e) % UINT32_SIZE)
            = false) := by
  have hdrop : (k.Drop base c t).drop_time_ = t := rfl
  have hkeep : ((k.Drop base c t).run base c ops).drop_time_ = t := by
    rw [Key.run_drop_time base c ops (k.Drop base c t) hops, hdrop]
  have hsub : sub32 ((t + e) % UINT32_SIZE) t = e := sub32_add_mod t e he
  refine ⟨?_, ?_, ?_⟩
  · simp [Key.CanBePickedUp, hdrop, sub32_self]
  · intro hlt
    simp [Key.CanBePickedUp, hkeep, hsub, hlt]
  · intro hle
    simp [Key.CanBePickedUp, hkeep, hsub, hle]

/-- Witness of C6 as amended: a cooldown of 1000 ms, a drop at tick 4294967000, then the key is
picked up by controller 7 and updated next to door `b`; 1500 ms after the drop the counter has
wrapped and shows 1204, and the key can be picked up; 1000 ms after the drop it cannot. -/
theorem Key.CanBePickedUp_after_Drop_witness :
    (4294967000 + 1500) % UINT32_SIZE = 1204
      ∧ (heldKey.Drop exampleBase exampleConstants 4294967000).CanBePickedUp exampleConstants
          4294967000 = false
      ∧ (((heldKey.Drop exampleBase exampleConstants 4294967000).run exampleBase
            exampleConstants [KeyOp.SetHolder (some 7), KeyOp.Update wrongDoorMap]).CanBePickedUp
          exampleConstants ((4294967000 + 1500) % UINT32_SIZE) = true)
      ∧ (((heldKey.Drop exampleBase exampleConstants 4294967000).run exampleBase
            exampleConstants [KeyOp.SetHolder (some 7), KeyOp.Update wrongDoorMap]).CanBePickedUp
          exampleConstants ((4294967000 + 1000) % UINT32_SIZE) = false) :=
  ⟨by decide,
   (Key.CanBePickedUp_after_Drop exampleBase exampleConstants heldKey 4294967000 1500
      [KeyOp.SetHolder (some 7), KeyOp.Update wrongDoorMap] (by simp [KeyOp.isDrop])
      (by decide)).1,
   (Key.CanBePickedUp_after_Drop exampleBase exampleConstants heldKey 4294967000 1500
      [KeyOp.SetHolder (some 7), KeyOp.Update wrongDoorMap] (by simp [KeyOp.isDrop])
      (by decide)).2.1 (by decide),
   (Key.CanBePickedUp_after_Drop exampleBase exampleConstants heldKey 4294967000 1000
      [KeyOp.SetHolder (some 7), KeyOp.Update wrongDoorMap] (by simp [KeyOp.isDrop])
      (by decide)).2.2 (by decide)⟩

/-- C7 (`Key::Drop` postcondition): after `Drop` the holder is null, the drop timestamp is the
tick count of the call, the transform and the bounding volume are those that `InitTransform` gives
the key, and the id and the cached vertex set are unchanged. -/
theorem Key.Drop_postcondition (base : GameObject) (c : Constants) (ticks : Nat) (k : Key) :
    (k.Drop base c ticks).holder_ = none
      ∧ (k.Drop base c ticks).drop_time_ = ticks
      ∧ (k.Drop base c ticks).transform = (k.InitTransform base c).transform
      ∧ (k.Drop base c ticks).bounding_box_ = (k.InitTransform base c).bounding_box_
      ∧ (k.Drop base c ticks).id_ = k.id_
      ∧ (k.Drop base c ticks).bounding_box_vertices_ = k.bounding_box_vertices_ :=
  ⟨rfl, rfl, rfl, rfl, rfl, rfl⟩

/-! ## Transform: the world position without a parent -/

/-- The world position of a transform that has no parent is its translation. -/
theorem Transform.WorldPosition_of_no_parent (t : Transform) (h : t.parent = none) :
    t.WorldPosition = t.translation := by
  simp [Transform.WorldPosition, Transform.WorldTransform, h, Transform.LocalTransform]

/-! ## Key::GoAway -/

/-- C9 (`Key::GoAway` postcondition): after `GoAway` the transform has no parent and its
translation, which is then its world position, is (0, 0, -3), below the floor, whatever the key
and its parent were before; holder, id, drop timestamp and cached vertex set are unchanged. -/
theorem Key.GoAway_postcondition (k : Key) :
    k.GoAway.transform.parent = none
      ∧ k.GoAway.transform.translation = ⟨0, 0, -3⟩
      ∧ k.GoAway.transform.WorldPosition = ⟨0, 0, -3⟩
      ∧ k.GoAway.transform.translation.z < 0
      ∧ k.GoAway.holder_ = k.holder_
      ∧ k.GoAway.id_ = k.id_
      ∧ k.GoAway.drop_time_ = k.drop_time_
      ∧ k.GoAway.bounding_box_vertices_ = k.bounding_box_vertices_ := by
  refine ⟨rfl, rfl, rfl, ?_, rfl, rfl, rfl, rfl⟩
  simp [Key.GoAway, Transform.ResetAndSetTranslation]

/-- C10 (idempotent `GoAway`): calling `Key::GoAway` twice in a row yields exactly the state that
calling it once yields. -/
theorem Key.GoAway_idempotent (k : Key) : k.GoAway.GoAway = k.GoAway := rfl

/-! ## The place and the holder of a key that has gone away -/

/-- After `Key::GoAway` the key is at the place of the keys that have gone away. -/
theorem Key.GoAway_isGoneAway (k : Key) : k.GoAway.isGoneAway = true := by
  simp [Key.isGoneAway, Key.GoAway, Transform.ResetAndSetTranslation, Transform.ClearParent]

/-- `Key::Update` leaves the transform as it was or as `Key::GoAway` sets it. -/
theorem Key.Update_transform (k : Key) (base : GameObject) (map_ : Map) :
    (k.Update base map_).1.transform = k.transform
      ∨ (k.Update base map_).1.transform = k.GoAway.transform := by
  cases hh : k.holder_ with
  | none => left; simp [Key.Update, Key.UpdateUnlock, Key.UpdateHeld, hh]
  | some holder =>
    cases hq : map_.IntersectsDoorWithId k k.id_ with
    | none => left; simp [Key.Update, Key.UpdateUnlock, Key.UpdateHeld, hh, hq]
    | some d => right; simp [Key.Update, Key.UpdateUnlock, Key.UpdateHeld, hh, hq]

/-- `Key::Update` leaves a null holder null. -/
theorem Key.Update_holder_none (k : Key) (base : GameObject) (map_ : Map)
    (h : k.holder_ = none) : (k.Update base map_).1.holder_ = none := by
  simp [Key.Update, Key.UpdateUnlock, Key.UpdateHeld, h]

/-- Whether a key is at the place of the keys that have gone away depends on its transform. -/
theorem Key.isGoneAway_of_transform (k k2 : Key) (h : k2.transform = k.transform) :
    k2.isGoneAway = k.isGoneAway := by
  simp [Key.isGoneAway, h]

/-- An operation other than `Drop` and `InitTransform` leaves a key that has gone away where it
is. -/
theorem Key.step_isGoneAway (base : GameObject) (c : Constants) (k : Key) (op : KeyOp)
    (hop : op.keepsPlace = true) (hgone : k.isGoneAway = true) :
    (k.step base c op).isGoneAway = true := by
  cases op with
  | Update map_ =>
    rcases Key.Update_transform k base map_ with h | h
    · rw [Key.step, Key.isGoneAway_of_transform k _ h]; exact hgone
    · rw [Key.step, Key.isGoneAway_of_transform k.GoAway _ h]; exact Key.GoAway_isGoneAway k
  | GoAway => exact Key.GoAway_isGoneAway k
  | SetHolder player => exact hgone
  | Drop ticks => simp [KeyOp.keepsPlace] at hop
  | InitTransform => simp [KeyOp.keepsPlace] at hop
  | CanBePickedUp ticks => exact hgone

/-- A sequence of operations without `Drop` and `InitTransform` leaves a key that has gone away
where it is. -/
theorem Key.run_isGoneAway (base : GameObject) (c : Constants) (ops : List KeyOp) :
    ∀ k : Key, (∀ op ∈ ops, op.keepsPlace = true) → k.isGoneAway = true →
      (k.run base c ops).isGoneAway = true := by
  induction ops with
  | nil => intro k _ hgone; exact hgone
  | cons op rest ih =>
    intro k h hgone
    have hop : op.keepsPlace = true := h op (List.mem_cons_self op rest)
    have hrest : ∀ o ∈ rest, o.keepsPlace = true := fun o ho => h o (List.mem_cons_of_mem op ho)
    exact ih (k.step base c op) hrest (Key.step_isGoneAway base c k op hop hgone)

/-- An operation other than `SetHolder` with a non-null player leaves a null holder null. -/
theorem Key.step_not_held (base : GameObject) (c : Constants) (k : Key) (op : KeyOp)
    (hop : op.keepsNotHeld = true) (hnull : k.holder_ = none) :
    (k.step base c op).holder_ = none := by
  cases op with
  | Update map_ => exact Key.Update_holder_none k base map_ hnull
  | GoAway => exact hnull
  | SetHolder player =>
    cases player with
    | none => rfl
    | some p => simp [KeyOp.keepsNotHeld] at hop
  | Drop ticks => rfl
  | InitTransform => exact hnull
  | CanBePickedUp ticks => exact hnull

/-- A sequence of operations without `SetHolder` with a non-null player leaves a null holder
null. -/
theorem Key.run_not_held (base : GameObject) (c : Constants) (ops : List KeyOp) :
    ∀ k : Key, (∀ op ∈ ops, op.keepsNotHeld = true) → k.holder_ = none →
      (k.run base c ops).holder_ = none := by
  induction ops with
  | nil => intro k _ hnull; exact hnull
  | cons op rest ih =>
    intro k h hnull
    have hop : op.keepsNotHeld = true := h op (List.mem_cons_self op rest)
    have hrest : ∀ o ∈ rest, o.keepsNotHeld = true :=
      fun o ho => h o (List.mem_cons_of_mem op ho)
    exact ih (k.step base c op) hrest (Key.step_not_held base c k op hop hnull)

/-- C12, the claim as stated fails: the key that has gone away in the update that opened its door
is held again after `SetHolder`, and is back at height KEY_HEIGHT, at (0, 0, 1/2), after `Drop`
and after `InitTransform`. -/
theorem Key.gone_away_not_terminal_counterexample :
    goneKey.isGoneAway = true ∧ goneKey.holder_ = none
      ∧ (goneKey.run exampleBase exampleConstants [KeyOp.SetHolder (some 7)]).holder_ = some 7
      ∧ (goneKey.run exampleBase exampleConstants [KeyOp.Drop 10]).transform.WorldPosition
          = ⟨0, 0, 1 / 2⟩
      ∧ (goneKey.run exampleBase exampleConstants [KeyOp.Drop 10]).isGoneAway = false
      ∧ (goneKey.run exampleBase exampleConstants [KeyOp.InitTransform]).transform.WorldPosition
          = ⟨0, 0, 1 / 2⟩
      ∧ (goneKey.run exampleBase exampleConstants [KeyOp.InitTransform]).isGoneAway = false := by
  refine ⟨?_, rfl, rfl, rfl, ?_, rfl, ?_⟩
  · exact Key.GoAway_isGoneAway heldKey
  · simp [Key.isGoneAway, Key.run, Key.step, Key.Drop, Key.InitTransform, Transform.Rotate,
      Transform.ResetAndSetTranslation, Transform.ClearParent, exampleConstants]
    norm_num
  · simp [Key.isGoneAway, Key.run, Key.step, Key.InitTransform, Transform.Rotate,
      Transform.ResetAndSetTranslation, Transform.ClearParent, exampleConstants]
    norm_num

/-- C12 as amended (what is terminal about a key that has gone away): once `Key::GoAway` has run,
directly or in the unlock transaction of `Key::Update`, no later sequence of `Update`, `GoAway`,
`SetHolder` and `CanBePickedUp` moves the key from (0, 0, -3), and no later sequence of `Update`,
`GoAway`, `Drop`, `InitTransform`, `CanBePickedUp` and `SetHolder` with a null player makes a key
that is not held, as it is after the unlock transaction, held again. -/
theorem Key.gone_away_terminal (base : GameObject) (c : Constants) (k : Key)
    (ops : List KeyOp) :
    ((∀ op ∈ ops, op.keepsPlace = true) → (k.GoAway.run base c ops).isGoneAway = true)
      ∧ ((∀ op ∈ ops, op.keepsNotHeld = true) → k.holder_ = none →
          (k.GoAway.run base c ops).holder_ = none)
      ∧ (∀ (map_ : Map) (holder : ControllerRef) (d : Door), k.holder_ = some holder →
          map_.IntersectsDoorWithId k k.id_ = some d →
          ((∀ op ∈ ops, op.keepsPlace = true) →
              ((k.Update base map_).1.run base c ops).isGoneAway = true)
            ∧ ((∀ op ∈ ops, op.keepsNotHeld = true) →
              ((k.Update base map_).1.run base c ops).holder_ = none)) := by
  refine ⟨?_, ?_, ?_⟩
  · intro hops
    exact Key.run_isGoneAway base c ops k.GoAway hops (Key.GoAway_isGoneAway k)
  · intro hops hnull
    exact Key.run_not_held base c ops k.GoAway hops hnull
  · intro map_ holder d hheld hdoor
    have htr : (k.Update base map_).1.transform = k.GoAway.transform := by
      simp [Key.Update, Key.UpdateUnlock, Key.UpdateHeld, hheld, hdoor]
    have hho : (k.Update base map_).1.holder_ = none := by
      simp [Key.Update, Key.UpdateUnlock, Key.UpdateHeld, hheld, hdoor]
    constructor
    · intro hops
      apply Key.run_isGoneAway base c ops _ hops
      rw [Key.isGoneAway_of_transform k.GoAway _ htr]
      exact Key.GoAway_isGoneAway k
    · intro hops
      exact Key.run_not_held base c ops _ hops hho

/-- Witness of C12 as amended: the held key `a` opens door `a`, then is updated again, asked
whether it can be picked up and sent away once more; it stays at (0, 0, -3) and not held. -/
theorem Key.gone_away_terminal_witness :
    ((heldKey.Update exampleBase crowdedMap).1.run exampleBase exampleConstants
        [KeyOp.Update crowdedMap, KeyOp.CanBePickedUp 2000, KeyOp.GoAway]).isGoneAway = true
      ∧ ((heldKey.Update exampleBase crowdedMap).1.run exampleBase exampleConstants
        [KeyOp.Update crowdedMap, KeyOp.CanBePickedUp 2000, KeyOp.GoAway]).holder_ = none :=
  ⟨((Key.gone_away_terminal exampleBase exampleConstants heldKey
        [KeyOp.Update crowdedMap, KeyOp.CanBePickedUp 2000, KeyOp.GoAway]).2.2
        crowdedMap 7 doorA rfl (by decide)).1 (by simp [KeyOp.keepsPlace]),
   ((Key.gone_away_terminal exampleBase exampleConstants heldKey
        [KeyOp.Update crowdedMap, KeyOp.CanBePickedUp 2000, KeyOp.GoAway]).2.2
        crowdedMap 7 doorA rfl (by decide)).2 (by simp [KeyOp.keepsNotHeld])⟩

/-! ## Key::Update: faults, the base update, the update as specified -/

/-- C13 (a missing match is not a fault): with a valid map pointer `Key::Update`, every pointer
checked where it is dereferenced, completes without a fault, with the result of the update, for
every key state and every query result; when the query returns no door no door is dereferenced
for `GoAway`; and `UseKey` is called on a holder only when the key's holder is that non-null
holder. -/
theorem Key.UpdateChecked_no_fault (k : Key) (base : GameObject) (m : Map) :
    k.UpdateChecked base (some m) = Except.ok (k.Update base m)
      ∧ (m.IntersectsDoorWithId k k.id_ = none →
          ∀ d : Door, Call.DoorGoAway d ∉ (k.Update base m).2)
      ∧ (∀ h : ControllerRef, Call.UseKey h ∈ (k.Update base m).2 → k.holder_ = some h) := by
  cases hh : k.holder_ with
  | none =>
    refine ⟨?_, ?_, ?_⟩
    · simp [Key.UpdateChecked, Key.Update, Key.UpdateUnlock, Key.UpdateHeld, deref, hh, bind,
        Except.bind, pure, Except.pure]
    · intro _ d
      simp [Key.Update, Key.UpdateUnlock, Key.UpdateHeld, hh]
    · intro h hmem
      simp [Key.Update, Key.UpdateUnlock, Key.UpdateHeld, hh] at hmem
  | some holder =>
    cases hq : m.IntersectsDoorWithId k k.id_ with
    | none =>
      refine ⟨?_, ?_, ?_⟩
      · simp [Key.UpdateChecked, Key.Update, Key.UpdateUnlock, Key.UpdateHeld, deref, hh, hq,
          bind, Except.bind, pure, Except.pure]
      · intro _ d
        simp [Key.Update, Key.UpdateUnlock, Key.UpdateHeld, hh, hq]
      · intro h hmem
        simp [Key.Update, Key.UpdateUnlock, Key.UpdateHeld, hh, hq] at hmem
    | some d0 =>
      refine ⟨?_, ?_, ?_⟩
      · simp [Key.UpdateChecked, Key.Update, Key.UpdateUnlock, Key.UpdateHeld, deref, hh, hq,
          bind, Except.bind, pure, Except.pure, Key.GoAway]
      · intro hnone
        simp at hnone
      · intro h hmem
        simp [Key.Update, Key.UpdateUnlock, Key.UpdateHeld, hh, hq] at hmem
        simp [hmem]

/-- Witness of C13: the held key `a` touching door `b` only, so that the query returns no door. -/
theorem Key.UpdateChecked_no_fault_witness :
    heldKey.UpdateChecked exampleBase (some wrongDoorMap)
        = Except.ok (heldKey.Update exampleBase wrongDoorMap)
      ∧ (∀ d : Door, Call.DoorGoAway d ∉ (heldKey.Update exampleBase wrongDoorMap).2)
      ∧ heldKey.holder_ = some 7 :=
  ⟨(Key.UpdateChecked_no_fault heldKey exampleBase wrongDoorMap).1,
   (Key.UpdateChecked_no_fault heldKey exampleBase wrongDoorMap).2.1 (by decide),
   (Key.UpdateChecked_no_fault heldKey exampleBase crowdedMap).2.2 7 (by decide)⟩

/-- C14 (base tracking is never skipped): on every path through `Key::Update` the base
`GameObject::Update` is called exactly once, and it is the last call, after the calls of the
unlock transaction and of the re-initialisation of the bounding volume. -/
theorem Key.Update_base_update_once_and_last (k : Key) (base : GameObject) (map_ : Map) :
    (k.Update base map_).2.count Call.GameObjectUpdate = 1
      ∧ (k.Update base map_).2.getLast? = some Call.GameObjectUpdate
      ∧ (∃ before : List Call, (k.Update base map_).2 = before ++ [Call.GameObjectUpdate]
          ∧ Call.GameObjectUpdate ∉ before) := by
  cases hh : k.holder_ with
  | none =>
    refine ⟨?_, ?_, [], ?_, ?_⟩ <;>
      simp [Key.Update, Key.UpdateUnlock, Key.UpdateHeld, hh]
  | some holder =>
    cases hq : map_.IntersectsDoorWithId k k.id_ with
    | none =>
      refine ⟨?_, ?_, [Call.InitBoundingBox, Call.BoundingBoxClearParent], ?_, ?_⟩ <;>
        simp [Key.Update, Key.UpdateUnlock, Key.UpdateHeld, hh, hq, List.count_cons]
    | some d =>
      refine ⟨?_, ?_, [Call.DoorGoAway d, Call.KeyGoAway, Call.UseKey holder], ?_, ?_⟩ <;>
        simp [Key.Update, Key.UpdateUnlock, Key.UpdateHeld, hh, hq, List.count_cons]

/-- No operation on a key writes `bounding_box_vertices_`. -/
theorem Key.step_bounding_box_vertices (base : GameObject) (c : Constants) (k : Key)
    (op : KeyOp) : (k.step base c op).bounding_box_vertices_ = k.bounding_box_vertices_ := by
  cases op with
  | Update map_ =>
    cases hh : k.holder_ with
    | none => simp [Key.step, Key.Update, Key.UpdateUnlock, Key.UpdateHeld, hh]
    | some holder =>
      cases hq : map_.IntersectsDoorWithId k k.id_ with
      | none => simp [Key.step, Key.Update, Key.UpdateUnlock, Key.UpdateHeld, hh, hq]
      | some d => simp [Key.step, Key.Update, Key.UpdateUnlock, Key.UpdateHeld, hh, hq, Key.GoAway]
  | GoAway => rfl
  | SetHolder player => rfl
  | Drop ticks => rfl
  | InitTransform => rfl
  | CanBePickedUp ticks => rfl

/-- No sequence of operations on a key writes `bounding_box_vertices_`. -/
theorem Key.run_bounding_box_vertices (base : GameObject) (c : Constants) (ops : List KeyOp) :
    ∀ k : Key, (k.run base c ops).bounding_box_vertices_ = k.bounding_box_vertices_ := by
  induction ops with
  | nil => intro k; rfl
  | cons op rest ih =>
    intro k
    have hrun : k.run base c (op :: rest) = (k.step base c op).run base c rest := rfl
    rw [hrun, ih (k.step base c op), Key.step_bounding_box_vertices base c k op]

/-- C16 (the vertex cache is stable): the cached vertex set of a constructed key is what
`GetBoxVertices` returned on the bounding volume the base constructor left, before the key was
translated to its map position; and after any sequence of `Update`, `GoAway`, `SetHolder`,
`Drop`, `CanBePickedUp` and `InitTransform` it is still that. -/
theorem Key.bounding_box_vertices_stable (base : GameObject) (c : Constants)
    (object_transform : Transform) (object_box : BoundingBox) (holder0 : Option ControllerRef)
    (drop_time0 : Nat) (id : Char) (pos : Vec2) (ops : List KeyOp) :
    (Key.new base c object_transform object_box holder0 drop_time0 id
        pos).bounding_box_vertices_ = object_box.GetBoxVertices
      ∧ ((Key.new base c object_transform object_box holder0 drop_time0 id pos).run base c
          ops).bounding_box_vertices_ = object_box.GetBoxVertices := by
  have hnew : (Key.new base c object_transform object_box holder0 drop_time0 id
      pos).bounding_box_vertices_ = object_box.GetBoxVertices := rfl
  exact ⟨hnew, by rw [Key.run_bounding_box_vertices, hnew]⟩

/-- C18 (the two holder tests implement the if / else-if): `Key::Update` is the update of the
specification, for every key state and every query result; the bounding volume is re-initialised
from the cached vertex set, and its parent attachment cleared, exactly when the key is held and
the query returned no door, so neither in the update of the unlock transaction nor when the key is
not held. -/
theorem Key.Update_eq_UpdateSpec (k : Key) (base : GameObject) (map_ : Map) :
    k.Update base map_ = k.UpdateSpec base map_
      ∧ (Call.InitBoundingBox ∈ (k.Update base map_).2
          ↔ (k.holder_ ≠ none ∧ map_.IntersectsDoorWithId k k.id_ = none))
      ∧ (Call.BoundingBoxClearParent ∈ (k.Update base map_).2
          ↔ (k.holder_ ≠ none ∧ map_.IntersectsDoorWithId k k.id_ = none)) := by
  cases hh : k.holder_ with
  | none =>
    refine ⟨?_, ?_, ?_⟩ <;>
      simp [Key.Update, Key.UpdateSpec, Key.UpdateUnlock, Key.UpdateHeld, hh]
  | some holder =>
    cases hq : map_.IntersectsDoorWithId k k.id_ with
    | none =>
      refine ⟨?_, ?_, ?_⟩ <;>
        simp [Key.Update, Key.UpdateSpec, Key.UpdateUnlock, Key.UpdateHeld, hh, hq]
    | some d =>
      refine ⟨?_, ?_, ?_⟩ <;>
        simp [Key.Update, Key.UpdateSpec, Key.UpdateUnlock, Key.UpdateHeld, hh, hq]

/-! ## Keys, holders and players: who holds what -/

/-- A key that names a holder is one of the keys of the world. -/
theorem World.holderOf_lt (w : World) (k : KeyRef) (h : ControllerRef)
    (hk : w.holderOf k = some h) : k < w.keys.length := by
  by_contra hlt
  have hnone : w.keys[k]? = none := List.getElem?_eq_none (Nat.le_of_not_lt hlt)
  simp [World.holderOf, hnone] at hk

/-- What `namedOnlyBy` checks. -/
theorem World.namedOnlyBy_spec (w : World) (holder : ControllerRef) (key : KeyRef)
    (hg : w.namedOnlyBy holder key = true) (k2 : KeyRef) (hk : w.holderOf k2 = some holder) :
    k2 = key := by
  have hlt := World.holderOf_lt w k2 holder hk
  simp only [World.namedOnlyBy, List.all_eq_true, List.mem_range, decide_eq_true_eq] at hg
  exact hg k2 hlt hk

/-- What `isExclusive` checks. -/
theorem World.isExclusive_spec (w : World) (hex : w.isExclusive = true) : w.Exclusive := by
  intro k1 k2 h h1 h2
  have hlt := World.holderOf_lt w k1 h h1
  simp only [World.isExclusive, List.all_eq_true, List.mem_range] at hex
  have hk := hex k1 hlt
  simp only [h1] at hk
  exact (World.namedOnlyBy_spec w h k1 hk k2 h2).symm

/-- A world whose keys name no holder that they did not name in an exclusive world is
exclusive. -/
theorem World.Exclusive_of_holderOf_le (w w2 : World) (hex : w.Exclusive)
    (hle : ∀ (k : KeyRef) (h : ControllerRef), w2.holderOf k = some h → w.holderOf k = some h) :
    w2.Exclusive :=
  fun k1 k2 h h1 h2 => hex k1 k2 h (hle k1 h h1) (hle k2 h h2)

/-- `Key::Update` gives a key no holder: the holder after it is the holder before it, or null. -/
theorem Key.Update_holder (k : Key) (base : GameObject) (map_ : Map) (h : ControllerRef)
    (hu : (k.Update base map_).1.holder_ = some h) : k.holder_ = some h := by
  cases hh : k.holder_ with
  | none => simp [Key.Update, Key.UpdateUnlock, Key.UpdateHeld, hh] at hu
  | some holder =>
    cases hq : map_.IntersectsDoorWithId k k.id_ with
    | none => simpa [Key.Update, Key.UpdateUnlock, Key.UpdateHeld, hh, hq] using hu
    | some d => simp [Key.Update, Key.UpdateUnlock, Key.UpdateHeld, hh, hq] at hu

/-- The holder that key `m` names after a member function has run on key `n`. -/
theorem World.holder_modify (f : Key → Key) (n m : Nat) (l : List Key) :
    ((List.modify f n l)[m]?).bind Key.holder_
      = if n = m then (l[m]?).bind (fun k => (f k).holder_) else (l[m]?).bind Key.holder_ := by
  rw [List.getElem?_modify]
  cases l[m]? with
  | none => simp
  | some k => by_cases h : n = m <;> simp [h]

/-- An operation other than `SetHolder` with a non-null holder gives no key a holder. -/
theorem World.step_holderOf (base : GameObject) (c : Constants) (w : World) (op : WorldOp)
    (hop : ∀ (key : KeyRef) (holder : ControllerRef),
      op ≠ WorldOp.KeySetHolder key (some holder))
    (k : KeyRef) (h : ControllerRef) (hk : (w.step base c op).holderOf k = some h) :
    w.holderOf k = some h := by
  cases op with
  | KeySetHolder key player =>
    cases player with
    | some holder => exact absurd rfl (hop key holder)
    | none =>
      simp only [World.step, World.holderOf, World.holder_modify] at hk
      by_cases hkk : key = k
      · cases hkey : w.keys[k]? <;> simp [hkk, hkey, Key.SetHolder] at hk
      · simpa [World.holderOf, hkk] using hk
  | KeyDrop key ticks =>
    simp only [World.step, World.holderOf, World.holder_modify] at hk
    by_cases hkk : key = k
    · cases hkey : w.keys[k]? <;> simp [hkk, hkey, Key.Drop, Key.InitTransform] at hk
    · simpa [World.holderOf, hkk] using hk
  | KeyGoAway key =>
    simp only [World.step, World.holderOf, World.holder_modify] at hk
    by_cases hkk : key = k
    · cases hkey : w.keys[k]? <;> simp [hkk, hkey, Key.GoAway] at hk
      simp [World.holderOf, hkey, hk]
    · simpa [World.holderOf, hkk] using hk
  | KeyUpdate key map_ =>
    simp only [World.step, World.KeyUpdate] at hk
    cases hkey : w.keys[key]? with
    | none => simpa [hkey] using hk
    | some k0 =>
      simp only [hkey, World.holderOf, List.getElem?_set] at hk
      by_cases hkk : key = k
      · subst hkk
        by_cases hlen : key < w.keys.length
        · simp only [hlen, if_true, Option.bind_some] at hk
          simp [World.holderOf, hkey, Key.Update_holder k0 base map_ h hk]
        · simp [hlen] at hk
      · simpa [World.holderOf, hkk] using hk
  | PlayerUseKey player => exact hk
  | PlayerDropKey player ticks =>
    simp only [World.step, World.PlayerDropKey] at hk
    cases hpl : w.players[player]? with
    | none => simpa [hpl] using hk
    | some pl =>
      cases hheld : pl.held_key_ with
      | none => simpa [hpl, hheld] using hk
      | some key =>
        simp only [hpl, hheld, World.holderOf, World.holder_modify] at hk
        by_cases hkk : key = k
        · cases hkey : w.keys[k]? <;> simp [hkk, hkey, Key.Drop, Key.InitTransform] at hk
        · simpa [World.holderOf, hkk] using hk

/-- An operation that respects exclusivity leaves an exclusive world exclusive. -/
theorem World.step_Exclusive (base : GameObject) (c : Constants) (w : World) (op : WorldOp)
    (hex : w.Exclusive) (hg : w.opGuarded op = true) : (w.step base c op).Exclusive := by
  cases op with
  | KeySetHolder key player =>
    cases player with
    | none =>
      exact World.Exclusive_of_holderOf_le w _ hex
        (World.step_holderOf base c w _ (fun _ _ hne => by simp at hne))
    | some holder =>
      have hguard : ∀ k2, w.holderOf k2 = some holder → k2 = key :=
        World.namedOnlyBy_spec w holder key hg
      have hafter : ∀ (k : KeyRef) (h : ControllerRef),
          (w.step base c (WorldOp.KeySetHolder key (some holder))).holderOf k = some h →
            (k = key ∧ h = holder) ∨ (k ≠ key ∧ w.holderOf k = some h) := by
        intro k h hk
        simp only [World.step, World.holderOf, World.holder_modify] at hk
        by_cases hkk : key = k
        · left
          cases hkey : w.keys[k]? with
          | none => simp [hkk, hkey] at hk
          | some k0 =>
            simp [hkk, hkey, Key.SetHolder] at hk
            exact ⟨hkk.symm, hk.symm⟩
        · right
          exact ⟨fun hc => hkk hc.symm, by simpa [World.holderOf, hkk] using hk⟩
      intro k1 k2 h h1 h2
      rcases hafter k1 h h1 with ⟨e1, hh1⟩ | ⟨n1, o1⟩
      · rcases hafter k2 h h2 with ⟨e2, _⟩ | ⟨n2, o2⟩
        · rw [e1, e2]
        · exact absurd (hguard k2 (hh1 ▸ o2)) n2
      · rcases hafter k2 h h2 with ⟨e2, hh2⟩ | ⟨n2, o2⟩
        · exact absurd (hguard k1 (hh2 ▸ o1)) n1
        · exact hex k1 k2 h o1 o2
  | KeyDrop key ticks =>
    exact World.Exclusive_of_holderOf_le w _ hex
      (World.step_holderOf base c w _ (fun _ _ hne => by simp at hne))
  | KeyGoAway key =>
    exact World.Exclusive_of_holderOf_le w _ hex
      (World.step_holderOf base c w _ (fun _ _ hne => by simp at hne))
  | KeyUpdate key map_ =>
    exact World.Exclusive_of_holderOf_le w _ hex
      (World.step_holderOf base c w _ (fun _ _ hne => by simp at hne))
  | PlayerUseKey player =>
    exact World.Exclusive_of_holderOf_le w _ hex
      (World.step_holderOf base c w _ (fun _ _ hne => by simp at hne))
  | PlayerDropKey player ticks =>
    exact World.Exclusive_of_holderOf_le w _ hex
      (World.step_holderOf base c w _ (fun _ _ hne => by simp at hne))

/-- A sequence of operations that respect exclusivity leaves an exclusive world exclusive. -/
theorem World.run_Exclusive (base : GameObject) (c : Constants) (ops : List WorldOp) :
    ∀ w : World, w.Exclusive → w.guarded base c ops = true → (w.run base c ops).Exclusive := by
  induction ops with
  | nil => intro w hex _; exact hex
  | cons op rest ih =>
    intro w hex hg
    simp only [World.guarded, Bool.and_eq_true] at hg
    exact ih (w.step base c op) (World.step_Exclusive base c w op hex hg.1) hg.2

/-- `Player::UseKey` on one player gives no player a key. -/
theorem World.heldKey_modify_UseKey (players : List Player) (player p : PlayerRef)
    (key : KeyRef)
    (h : ((List.modify Player.UseKey player players)[p]?).bind Player.held_key_ = some key) :
    (players[p]?).bind Player.held_key_ = some key := by
  rw [List.getElem?_modify] at h
  cases hp : players[p]? with
  | none => simp [hp] at h
  | some pl =>
    by_cases hhp : player = p
    · simp [hp, hhp, Player.UseKey] at h
    · simpa [hp, hhp] using h

/-- No operation gives a player a key: a key held after the operation was held before. -/
theorem World.step_heldKeyOf (base : GameObject) (c : Constants) (w : World) (op : WorldOp)
    (p : PlayerRef) (key : KeyRef) (h : (w.step base c op).heldKeyOf p = some key) :
    w.heldKeyOf p = some key := by
  cases op with
  | KeySetHolder k player => exact h
  | KeyDrop k ticks => exact h
  | KeyGoAway k => exact h
  | KeyUpdate k map_ =>
    simp only [World.step, World.KeyUpdate] at h
    cases hk : w.keys[k]? with
    | none => simpa [hk] using h
    | some k0 => simpa [hk, World.heldKeyOf] using h
  | PlayerUseKey player => exact World.heldKey_modify_UseKey w.players player p key h
  | PlayerDropKey player ticks =>
    simp only [World.step, World.PlayerDropKey] at h
    cases hpl : w.players[player]? with
    | none => simpa [hpl] using h
    | some pl =>
      cases hheld : pl.held_key_ with
      | none => simpa [hpl, hheld] using h
      | some k0 =>
        simp only [hpl, hheld, World.heldKeyOf, List.getElem?_set] at h
        by_cases hpp : player = p
        · subst hpp
          by_cases hlen : player < w.players.length
          · simp [hlen] at h
          · simp [hlen] at h
        · simpa [World.heldKeyOf, hpp] using h

/-- No sequence of operations gives a player a key. -/
theorem World.run_heldKeyOf (base : GameObject) (c : Constants) (ops : List WorldOp) :
    ∀ (w : World) (p : PlayerRef) (key : KeyRef),
      (w.run base c ops).heldKeyOf p = some key → w.heldKeyOf p = some key := by
  induction ops with
  | nil => intro w p key h; exact h
  | cons op rest ih =>
    intro w p key h
    exact World.step_heldKeyOf base c w op p key (ih (w.step base c op) p key h)

/-- C11, the claim as stated fails: two keys lie in the maze, held by nobody; `SetHolder` with
controller 0 on key 0 and then on key 1 leaves controller 0 the holder of both keys. -/
theorem World.SetHolder_unguarded_counterexample :
    emptyHandedWorld.isExclusive = true
      ∧ (emptyHandedWorld.run exampleBase exampleConstants
          [WorldOp.KeySetHolder 0 (some 0), WorldOp.KeySetHolder 1 (some 0)]).holderOf 0 = some 0
      ∧ (emptyHandedWorld.run exampleBase exampleConstants
          [WorldOp.KeySetHolder 0 (some 0), WorldOp.KeySetHolder 1 (some 0)]).holderOf 1 = some 0
      ∧ (emptyHandedWorld.run exampleBase exampleConstants
          [WorldOp.KeySetHolder 0 (some 0), WorldOp.KeySetHolder 1 (some 0)]).isExclusive
          = false := by
  decide

/-- C11 as amended (pickup exclusivity): from a world in which no two keys name the same holder,
any sequence of `Key::SetHolder`, `Key::Drop`, `Key::GoAway`, `Key::Update`, `Player::UseKey` and
`Player::DropKey` in which `SetHolder` with a non-null holder is called on a key only when no
other key names that holder leads to a world in which no holder is the holder of two keys;
`SetHolder` replaces the holder of a key, so that a key has the one holder last set; and a player
has a key in `held_key_` only if it had it before the sequence, none of the operations giving a
player a key. -/
theorem World.pickup_exclusivity (base : GameObject) (c : Constants) (w : World)
    (ops : List WorldOp) (hex : w.isExclusive = true) (hg : w.guarded base c ops = true) :
    (∀ (k1 k2 : KeyRef) (h : ControllerRef), (w.run base c ops).holderOf k1 = some h →
        (w.run base c ops).holderOf k2 = some h → k1 = k2)
      ∧ (∀ (key : KeyRef) (player : Option ControllerRef),
          key < (w.run base c ops).keys.length →
          ((w.run base c ops).step base c (WorldOp.KeySetHolder key player)).holderOf key
            = player)
      ∧ (∀ (p : PlayerRef) (key : KeyRef), (w.run base c ops).heldKeyOf p = some key →
          w.heldKeyOf p = some key)
      ∧ ((∀ (key : KeyRef) (p1 p2 : PlayerRef), w.heldKeyOf p1 = some key →
            w.heldKeyOf p2 = some key → p1 = p2) →
          ∀ (key : KeyRef) (p1 p2 : PlayerRef), (w.run base c ops).heldKeyOf p1 = some key →
            (w.run base c ops).heldKeyOf p2 = some key → p1 = p2) := by
  refine ⟨?_, ?_, ?_, ?_⟩
  · exact World.run_Exclusive base c ops w (World.isExclusive_spec w hex) hg
  · intro key player hlt
    simp only [World.step, World.holderOf, World.holder_modify, if_true]
    have hsome : (w.run base c ops).keys[key]? = some ((w.run base c ops).keys[key]) :=
      List.getElem?_eq_getElem hlt
    simp [hsome, Key.SetHolder]
  · intro p key h
    exact World.run_heldKeyOf base c ops w p key h
  · intro hbefore key p1 p2 h1 h2
    exact hbefore key p1 p2 (World.run_heldKeyOf base c ops w p1 key h1)
      (World.run_heldKeyOf base c ops w p2 key h2)

/-- Witness of C11 as amended: key 0, held by controller 1, opens door `a` and has no holder any
more; then key 1 is given to controller 1, player 1 drops key 1, and key 0 is given to
controller 1: every `SetHolder` finds the controller free, and in the end controller 1 is the
holder of key 0 only. -/
theorem World.pickup_exclusivity_witness :
    (exampleWorld.run exampleBase exampleConstants
        [WorldOp.KeyUpdate 0 crowdedMap, WorldOp.KeySetHolder 1 (some 1),
          WorldOp.PlayerDropKey 1 5, WorldOp.KeySetHolder 0 (some 1)]).holderOf 0 = some 1
      ∧ (exampleWorld.run exampleBase exampleConstants
        [WorldOp.KeyUpdate 0 crowdedMap, WorldOp.KeySetHolder 1 (some 1),
          WorldOp.PlayerDropKey 1 5, WorldOp.KeySetHolder 0 (some 1)]).holderOf 1 = none
      ∧ (∀ k2 : KeyRef, (exampleWorld.run exampleBase exampleConstants
        [WorldOp.KeyUpdate 0 crowdedMap, WorldOp.KeySetHolder 1 (some 1),
          WorldOp.PlayerDropKey 1 5, WorldOp.KeySetHolder 0 (some 1)]).holderOf k2 = some 1 →
          k2 = 0) :=
  ⟨by decide, by decide,
   fun k2 hk2 =>
    (World.pickup_exclusivity exampleBase exampleConstants exampleWorld
      [WorldOp.KeyUpdate 0 crowdedMap, WorldOp.KeySetHolder 1 (some 1),
        WorldOp.PlayerDropKey 1 5, WorldOp.KeySetHolder 0 (some 1)]
      (by decide) (by decide)).1 k2 0 1 hk2 (by decide)⟩

/-! ## The frame and the start of the application -/

/-- C15, the claim as stated fails: a frame with an HMD present makes two `Map::UpdateAll`
passes, not one. -/
theorem RenderFrame_two_update_passes_counterexample :
    (RenderFrame true).count FrameCall.MapUpdateAll = 2
      ∧ (RenderFrame true).count FrameCall.MapUpdateAll ≠ 1 := by
  decide

/-- C15 as amended (world updates per frame): a frame with an HMD present makes exactly two
`Map::UpdateAll` passes, one in the `RenderScene` of each eye; a frame without an HMD makes
none. -/
theorem RenderFrame_update_passes :
    (RenderFrame true).count FrameCall.MapUpdateAll = 2
      ∧ (∀ nEye : Hmd_Eye, (RenderScene nEye).count FrameCall.MapUpdateAll = 1)
      ∧ RenderStereoTargets = RenderScene Hmd_Eye.Eye_Left ++ RenderScene Hmd_Eye.Eye_Right
      ∧ (RenderFrame false).count FrameCall.MapUpdateAll = 0 := by
  refine ⟨by decide, ?_, rfl, by decide⟩
  intro nEye
  cases nEye <;> decide

/-- C17, the code at the failing input: started with `-m map1.txt`, the application passes
`map2.txt` to `MapLoader::LoadMap`, as it does for every argument list. -/
theorem SetupScene_ignores_map_argument :
    (CMainApplication.new ["MazeGame", "-m", "map1.txt"]).SetupScene_map_file = "map2.txt"
      ∧ (CMainApplication.new ["MazeGame", "-m", "map1.txt"]).SetupScene_map_file ≠ "map1.txt"
      ∧ (∀ argv : List String, (CMainApplication.new argv).SetupScene_map_file = "map2.txt") := by
  refine ⟨rfl, by decide, fun _ => rfl⟩

/-- C19, the code at the failing input: when the shaders cannot be created `BInitGL` returns
true, as it does in every start. -/
theorem BInitGL_true_without_shaders :
    shadersFailStartup.shaders_created = false
      ∧ (BInitGL shadersFailStartup).1 = true
      ∧ (∀ s : Startup, (BInitGL s).1 = true) := by
  refine ⟨rfl, rfl, fun _ => rfl⟩

/-- C20, the code at the failing input: when `gladLoadGLLoader` fails and every earlier step
succeeds, `BInit` returns true (`return -1;` in a function that returns `bool`); every other
failed step makes `BInit` return false. -/
theorem BInit_true_when_glad_fails :
    gladFailsStartup.gladLoadGLLoader = 0
      ∧ BInit gladFailsStartup = true
      ∧ intToBool (-1) = true
      ∧ BInit { goodStartup with SDL_Init := -1 } = false
      ∧ BInit { goodStartup with VR_Init_ok := false } = false
      ∧ BInit { goodStartup with SDL_CreateWindow_ok := false } = false
      ∧ BInit { goodStartup with SDL_GL_CreateContext_ok := false } = false
      ∧ BInit { goodStartup with VRCompositor_ok := false } = false
      ∧ BInit goodStartup = true := by
  decide

/-! ## The cooldown and the wrap-around of the millisecond counter -/

/-- C21 (the cooldown gate survives the wrap-around of the tick counter): with the tick count and
the drop timestamp `Uint32` values and the subtraction modulo `2 ^ 32`, for every drop time `t`
and every elapsed time `e` below `2 ^ 32` milliseconds, `CanBePickedUp` at tick
`(t + e) % 2 ^ 32` returns true exactly when `e` exceeds `KEY_DROP_PICKUP_COOLDOWN_MS`, whether
or not the counter has wrapped past zero since the drop; so it is for the key as `Drop` at tick
`t` leaves it. -/
theorem Key.CanBePickedUp_wrap_around (c : Constants) (k : Key) (t e : Nat)
    (ht : k.drop_time_ = t) (he : e < UINT32_SIZE) :
    (k.CanBePickedUp c ((t + e) % UINT32_SIZE) = true
        ↔ e > c.KEY_DROP_PICKUP_COOLDOWN_MS)
      ∧ (∀ (base : GameObject) (k0 : Key),
          (k0.Drop base c t).CanBePickedUp c ((t + e) % UINT32_SIZE) = true
            ↔ e > c.KEY_DROP_PICKUP_COOLDOWN_MS) := by
  constructor
  · simp [Key.CanBePickedUp, ht, sub32_add_mod t e he]
  · intro base k0
    have hdrop : (k0.Drop base c t).drop_time_ = t := rfl
    simp [Key.CanBePickedUp, hdrop, sub32_add_mod t e he]

/-- Witness of C21: a cooldown of 1000 ms and a drop at tick 4294967286, ten milliseconds before
the counter wraps; 1011 ms later the counter shows 1001, less than the drop timestamp, and the
key can be picked up; 1000 ms after the drop the counter shows 990 and it cannot. -/
theorem Key.CanBePickedUp_wrap_around_witness :
    (4294967286 + 1011) % UINT32_SIZE = 1001
      ∧ ((heldKey.Drop exampleBase exampleConstants 4294967286).CanBePickedUp exampleConstants
            ((4294967286 + 1011) % UINT32_SIZE) = true
          ↔ 1011 > exampleConstants.KEY_DROP_PICKUP_COOLDOWN_MS)
      ∧ (heldKey.Drop exampleBase exampleConstants 4294967286).CanBePickedUp exampleConstants
            1001 = true
      ∧ (heldKey.Drop exampleBase exampleConstants 4294967286).CanBePickedUp exampleConstants
            990 = false :=
  ⟨by decide,
   (Key.CanBePickedUp_wrap_around exampleConstants
      (heldKey.Drop exampleBase exampleConstants 4294967286) 4294967286 1011 rfl
      (by decide)).1,
   by decide, by decide⟩

end MazeGame
